import Mathlib

/-!
Verification development for the `etf_tools` filing-extraction core.

The Python sources under `src/etf_pipeline` are shallowly embedded here:

* Python `str` values are modelled as `PyStr := List Char`; the helpers
  `pyStrip`, `pyLower`, `removeChar`, `pyIn`, ... model the corresponding
  `str` methods on the ASCII fragment these parsers operate on.
* `decimal.Decimal` values are modelled as `PyDec`: either a finite exact
  decimal (`PyDec.fin`, a scaled integer `m · 10⁻ᵉ` kept in normal form) or
  a quiet NaN (`PyDec.nan`).  Within the magnitudes these parsers handle
  (far below the 28 significant digits of Python's default decimal context)
  Python's decimal arithmetic is exact, so exact arithmetic is a faithful
  model of the finite case.  An ordering comparison involving a NaN signals
  `InvalidOperation` in Python's default context, i.e. raises; the model
  returns `none` from `pyLeD`/`pyLtZeroD` there.  Signaling NaN and
  Infinity literals are outside the modelled fragment of the `Decimal`
  string constructor.
* Fallible Python code is modelled with `Option`/`Except`; a raised
  exception is an `Except.error`.
* `BeautifulSoup` is an external collaborator: an HTML document handed to
  the table parser is modelled as `Option (List Row)` — `none` when
  `soup.find("table")` finds no table element, otherwise the list of `tr`
  rows, each row carrying the `get_text()` results of its `td`/`th` cells
  and the `get_text()` of the row itself.
-/

/-- Python `str` values, modelled as lists of characters. -/
abbrev PyStr := List Char

/-- Embed a Lean string literal as a `PyStr`. -/
def pstr (s : String) : PyStr := s.data

/-- Characters stripped by Python `str.strip()` (ASCII whitespace, which is
also what `\s` of the `re` module matches on ASCII input). -/
def isPySpace (c : Char) : Bool :=
  c = ' ' || c = '\t' || c = '\n' || c = '\r' || c = '\x0b' || c = '\x0c'

/-- Model of Python `str.strip()`. -/
def pyStrip (s : PyStr) : PyStr :=
  ((s.dropWhile isPySpace).reverse.dropWhile isPySpace).reverse

/-- Lower-case one character (ASCII fragment of Python `str.lower()`). -/
def pyLowerChar (c : Char) : Char :=
  if 65 ≤ c.toNat && c.toNat ≤ 90 then Char.ofNat (c.toNat + 32) else c

/-- Model of Python `str.lower()` on the ASCII fragment. -/
def pyLower (s : PyStr) : PyStr := s.map pyLowerChar

/-- Model of Python `str.replace(c, "")` for a one-character pattern. -/
def removeChar (c : Char) (s : PyStr) : PyStr := s.filter (fun d => d ≠ c)

/-- True when `n` starts the string `h` (prefix test). -/
def hasPrefixL : PyStr → PyStr → Bool
  | [], _ => true
  | _ :: _, [] => false
  | a :: as, b :: bs => a = b && hasPrefixL as bs

/-- Model of the Python substring test `needle in hay`. -/
def pyIn (n : PyStr) : PyStr → Bool
  | [] => hasPrefixL n []
  | c :: t => hasPrefixL n (c :: t) || pyIn n t

/-- Model of Python `str.startswith(c)` for a one-character pattern. -/
def pyStartsWithChar (s : PyStr) (c : Char) : Bool :=
  match s with
  | [] => false
  | a :: _ => a = c

/-- Model of Python `str.endswith(c)` for a one-character pattern. -/
def pyEndsWithChar (s : PyStr) (c : Char) : Bool :=
  match s.getLast? with
  | some a => a = c
  | none => false

/-- Model of the Python slice `s[1:-1]`. -/
def sliceOneToM1 (s : PyStr) : PyStr := (s.drop 1).dropLast

/-- Association-list update with Python `dict` assignment semantics:
assigning to an existing key replaces its value in place, otherwise the
binding is appended (insertion order is preserved, as for `dict`). -/
def alistUpdate {α β : Type} [DecidableEq α] (k : α) (v : β) :
    List (α × β) → List (α × β)
  | [] => [(k, v)]
  | (k1, v1) :: t => if k1 = k then (k, v) :: t else (k1, v1) :: alistUpdate k v t

/-- Association-list lookup (Python `dict` subscript / `.get`). -/
def alistGet {α β : Type} [DecidableEq α] (k : α) : List (α × β) → Option β
  | [] => none
  | (k1, v1) :: t => if k1 = k then some v1 else alistGet k t

/-- First result of an option-valued function over a list (models a Python
`for` loop that `break`s at the first hit). -/
def firstSome {α β : Type} (f : α → Option β) : List α → Option β
  | [] => none
  | a :: t =>
    match f a with
    | some b => some b
    | none => firstSome f t

/-- A finite decimal value `m · 10⁻ᵉ` (exactly how `decimal.Decimal` stores
finite values, up to normalisation). -/
structure Dec where
  m : Int
  e : ℕ
deriving DecidableEq

/-- Normalise a scaled integer: strip factors of ten from the mantissa.
All `Dec` values produced by the model are in this normal form, so
structural equality of results coincides with value equality. -/
def Dec.norm (m : Int) : ℕ → Dec
  | 0 => ⟨m, 0⟩
  | e + 1 => if m % 10 = 0 then Dec.norm (m / 10) e else ⟨m, e + 1⟩

/-- The rational value denoted by a `Dec`. -/
def Dec.toRat (d : Dec) : ℚ := (d.m : ℚ) / 10 ^ d.e

/-- The decimal `n · 10⁻ᵉ`, in normal form (notation for stating results:
`decOf 1410 4` is the decimal `0.1410`). -/
def decOf (n : Int) (e : ℕ) : Dec := Dec.norm n e

/-- Decimal negation. -/
def Dec.negD (d : Dec) : Dec := ⟨-d.m, d.e⟩

/-- Decimal absolute value. -/
def Dec.absD (d : Dec) : Dec := ⟨|d.m|, d.e⟩

/-- Decimal addition (exact). -/
def Dec.addD (a b : Dec) : Dec :=
  Dec.norm (a.m * 10 ^ b.e + b.m * 10 ^ a.e) (a.e + b.e)

/-- Decimal subtraction (exact). -/
def Dec.subD (a b : Dec) : Dec := Dec.addD a (Dec.negD b)

/-- Decimal division by 100 (exact for powers of ten). -/
def Dec.div100 (d : Dec) : Dec := Dec.norm d.m (d.e + 2)

/-- Decimal multiplication by `10^k` for an integer `k` (the iXBRL scale
factor `value * Decimal(10) ** k`, exact). -/
def Dec.scale10 (d : Dec) (k : Int) : Dec :=
  if 0 ≤ k then Dec.norm (d.m * 10 ^ k.toNat) d.e
  else Dec.norm d.m (d.e + (-k).toNat)

/-- Decimal ordering `a ≤ b`, decided exactly on cross-scaled mantissas. -/
def Dec.decLe (a b : Dec) : Bool := a.m * 10 ^ b.e ≤ b.m * 10 ^ a.e

/-- Decimal ordering `a < 0`. -/
def Dec.ltZero (a : Dec) : Bool := a.m < 0

/-- A `decimal.Decimal` value: a finite exact decimal or a quiet NaN. -/
inductive PyDec : Type where
  | fin : Dec → PyDec
  | nan : PyDec
deriving DecidableEq

/-- Decimal unary minus (quiet on NaN). -/
def pyNegD : PyDec → PyDec
  | .fin q => .fin q.negD
  | .nan => .nan

/-- Decimal addition (a quiet NaN propagates without signaling). -/
def pyAddD : PyDec → PyDec → PyDec
  | .fin a, .fin b => .fin (a.addD b)
  | _, _ => .nan

/-- Decimal subtraction (a quiet NaN propagates without signaling). -/
def pySubD : PyDec → PyDec → PyDec
  | .fin a, .fin b => .fin (a.subD b)
  | _, _ => .nan

/-- Decimal `abs` (quiet on NaN). -/
def pyAbsD : PyDec → PyDec
  | .fin q => .fin q.absD
  | .nan => .nan

/-- Decimal division by 100 (quiet on NaN). -/
def pyDiv100 : PyDec → PyDec
  | .fin q => .fin q.div100
  | .nan => .nan

/-- Decimal multiplication by `10^k` (quiet on NaN). -/
def pyScale10 : PyDec → Int → PyDec
  | .fin q, k => .fin (q.scale10 k)
  | .nan, _ => .nan

/-- Decimal multiplication by the integer `1_000_000` (quiet on NaN). -/
def pyMul1e6 : PyDec → PyDec
  | .fin q => .fin (Dec.norm (q.m * 1000000) q.e)
  | .nan => .nan

/-- Decimal ordering comparison `x <= y`.  Returns `none` when an operand
is a NaN: in Python's default decimal context that comparison signals
`InvalidOperation`, i.e. raises. -/
def pyLeD : PyDec → PyDec → Option Bool
  | .fin a, .fin b => some (a.decLe b)
  | _, _ => none

/-- Decimal ordering comparison `x < 0` (raises on NaN, like `pyLeD`). -/
def pyLtZeroD : PyDec → Option Bool
  | .fin a => some a.ltZero
  | .nan => none

/-- Python truthiness of a `Decimal` (`bool(d)`): false exactly for zero;
a NaN is truthy (its quiet equality comparison with 0 is false). -/
def pyTruthyD : PyDec → Bool
  | .fin q => decide (q.m ≠ 0)
  | .nan => true

/-- The rational value of a finite `PyDec` (`none` for NaN). -/
def pyDecToRat : PyDec → Option ℚ
  | .fin q => some q.toRat
  | .nan => none

/-- Digits as a natural number (base 10, ASCII). -/
def natOfDigits (s : PyStr) : ℕ :=
  s.foldl (fun a c => a * 10 + (c.toNat - 48)) 0

/-- True when the string is nonempty and all characters are ASCII digits. -/
def allDigits1 (s : PyStr) : Bool :=
  !s.isEmpty && s.all Char.isDigit

/-- Split an optional exponent suffix `[eE][+-]?digits`: returns
`(mantissa, exponent)`, or `none` when an `e`/`E` is present but the
exponent part is malformed. -/
def splitExponent (s : PyStr) : Option (PyStr × Int) :=
  match s.findIdx? (fun c => c = 'e' || c = 'E') with
  | none => some (s, 0)
  | some i =>
    let mant := s.take i
    let ex := s.drop (i + 1)
    match ex with
    | '+' :: ds => if allDigits1 ds then some (mant, (natOfDigits ds : Int)) else none
    | '-' :: ds => if allDigits1 ds then some (mant, -(natOfDigits ds : Int)) else none
    | ds => if allDigits1 ds then some (mant, (natOfDigits ds : Int)) else none

/-- Parse an unsigned decimal mantissa `digits [. digits]` or `[.] digits`
(at least one digit overall, at most one dot) with the exponent applied. -/
def parseUnsignedDec (s : PyStr) : Option Dec :=
  match splitExponent s with
  | none => none
  | some (mant, ex) =>
    match mant.findIdx? (fun c => c = '.') with
    | none =>
      if allDigits1 mant then
        some (Dec.scale10 (Dec.norm (natOfDigits mant : Int) 0) ex)
      else none
    | some i =>
      let ip := mant.take i
      let fp := mant.drop (i + 1)
      if ip.all Char.isDigit && fp.all Char.isDigit && !(ip.isEmpty && fp.isEmpty)
          && !fp.any (fun c => c = '.') then
        some (Dec.scale10 (Dec.norm (natOfDigits (ip ++ fp) : Int) fp.length) ex)
      else none

/-- Core of the `decimal.Decimal` string constructor after whitespace and
underscores are removed: an optional sign, then either a quiet-NaN literal
(`nan` with an optional digit payload, case-insensitive) or a finite
decimal numeral with optional exponent.  Signaling NaN and Infinity
literals are outside the modelled fragment. -/
def pyDecimalCore (s : PyStr) : Option PyDec :=
  let signBody : Bool × PyStr :=
    match s with
    | '+' :: t => (false, t)
    | '-' :: t => (true, t)
    | t => (false, t)
  let neg := signBody.1
  let body := signBody.2
  let bl := pyLower body
  if hasPrefixL (pstr "nan") bl && (bl.drop 3).all Char.isDigit then
    some .nan
  else
    match parseUnsignedDec body with
    | some q => some (.fin (if neg then q.negD else q))
    | none => none

/-- Model of `decimal.Decimal(s)` for a string argument: CPython strips
leading/trailing whitespace, removes underscores, then parses
(`_pydecimal.Decimal.__new__`). -/
def pyDecimalOfStr (s : PyStr) : Option PyDec :=
  pyDecimalCore (removeChar '_' (pyStrip s))

/-- Continuation of a PEP 515 digit run after a leading digit: further
digits, with single underscores allowed strictly between digits. -/
def pyIntDigitsRest : PyStr → Bool
  | [] => true
  | '_' :: [] => false
  | '_' :: c :: t => c.isDigit && pyIntDigitsRest t
  | c :: t => c.isDigit && pyIntDigitsRest t

/-- A valid `int()` digit sequence: nonempty, starts and ends with a digit,
single underscores only between digits (PEP 515: `int("1_0") == 10`,
while `int("_10")`, `int("10_")` and `int("1__0")` raise `ValueError`). -/
def pyIntDigits : PyStr → Bool
  | [] => false
  | c :: t => c.isDigit && pyIntDigitsRest t

/-- Model of Python `int(s)` for a string argument (ASCII fragment:
optional surrounding whitespace, an optional sign, then decimal digits
with optional PEP 515 single underscores between digits — the underscores
are dropped before the digits are read). -/
def pyIntOfStr (s : PyStr) : Option Int :=
  match pyStrip s with
  | '+' :: ds => if pyIntDigits ds then some (natOfDigits (removeChar '_' ds) : Int) else none
  | '-' :: ds => if pyIntDigits ds then some (-(natOfDigits (removeChar '_' ds) : Int)) else none
  | ds => if pyIntDigits ds then some (natOfDigits (removeChar '_' ds) : Int) else none

/-- The `not s or s in ("-", "—", "N/A", "n/a")` guard of `_parse_decimal`. -/
def dashWordGuard (s : PyStr) : Bool :=
  s = [] || s = pstr "-" || s = pstr "—" || s = pstr "N/A" || s = pstr "n/a"

/-- The `s.startswith("(") and s.endswith(")")` test of `_parse_decimal`
(its `is_negative` flag). -/
def hasParenShape (s1 : PyStr) : Bool :=
  pyStartsWithChar s1 '(' && pyEndsWithChar s1 ')'

/-- The conditional `s = s[1:-1]` of `_parse_decimal`. -/
def parenInner (s1 : PyStr) : PyStr :=
  if hasParenShape s1 then sliceOneToM1 s1 else s1

/-- The numeric part of `_parse_decimal`, applied to the stripped input
after the dash-word guard: remember the percent flag, drop `%`, strip one
layer of parentheses (recording negativity), drop `$` and `,`, parse with
`Decimal`, then negate and divide by 100 as flagged. -/
def parse_decimal_num (s : PyStr) : Option PyDec :=
  match pyDecimalOfStr (removeChar ',' (removeChar '$' (parenInner (removeChar '%' s)))) with
  | none => none
  | some d0 =>
    let d1 := if hasParenShape (removeChar '%' s) then pyNegD d0 else d0
    some (if pyIn (pstr "%") s then pyDiv100 d1 else d1)

/-- Embedding of `_parse_decimal` (src/etf_pipeline/parsers/finhigh.py).
The Python function also accepts `None` (the `none` argument here) and
already-`Decimal` inputs; the table-parser call sites only ever pass `None`
or cell strings, which is the fragment modelled. -/
def parse_decimal (value : Option PyStr) : Option PyDec :=
  match value with
  | none => none
  | some raw =>
    let s := pyStrip raw
    if dashWordGuard s then none else parse_decimal_num s

/-- Scale application step of `convert_numeric_value`
(src/etf_pipeline/parsers/prospectus.py, `if scale:` block): an absent or
empty scale string is skipped, a valid integer scale multiplies by `10^k`,
and an invalid scale string is logged and ignored, leaving the value
unchanged. -/
def apply_scale (v : PyDec) (scale : Option PyStr) : PyDec :=
  match scale with
  | none => v
  | some sc =>
    if sc ≠ [] then
      match pyIntOfStr sc with
      | some k => pyScale10 v k
      | none => v
    else v

/-- The error/exception outcomes of the embedded parsers. -/
inductive PyErr : Type where
  | noTable : PyErr
  | tooFewRows : PyErr
  | invalidOperation : PyErr
deriving DecidableEq

instance instDecEqExcept {ε α : Type} [DecidableEq ε] [DecidableEq α] :
    DecidableEq (Except ε α) := fun a b =>
  match a, b with
  | .ok x, .ok y =>
    if h : x = y then .isTrue (congrArg Except.ok h)
    else .isFalse (fun hh => h (Except.ok.inj hh))
  | .error x, .error y =>
    if h : x = y then .isTrue (congrArg Except.error h)
    else .isFalse (fun hh => h (Except.error.inj hh))
  | .ok _, .error _ => .isFalse (fun hh => Except.noConfusion hh)
  | .error _, .ok _ => .isFalse (fun hh => Except.noConfusion hh)

/-- The `'<pat>' in format_attr.lower()` test of `convert_numeric_value`,
guarded by the enclosing `if format_attr:` truthiness check. -/
def fmtHas (format_attr : Option PyStr) (pat : PyStr) : Bool :=
  match format_attr with
  | some f => (f ≠ [] : Bool) && pyIn pat (pyLower f)
  | none => false

/-- Embedding of `convert_numeric_value`
(src/etf_pipeline/parsers/prospectus.py).  The `element` argument is the
element's `get_text()` result (`none` models a `None` element).  The result
is `Except` because the final `negate_to_positive and value < 0` comparison
signals `InvalidOperation` (raises) when the parsed value is a NaN. -/
def convert_numeric_value (element : Option PyStr) (scale : Option PyStr)
    (format_attr : Option PyStr) (sign : Option PyStr)
    (negate_to_positive : Bool) : Except PyErr (Option PyDec) :=
  match element with
  | none => .ok none
  | some raw =>
    let text := pyStrip raw
    if fmtHas format_attr (pstr "numwordsen")
        && (pyLower text = pstr "none" || pyLower text = pstr "n/a") then
      .ok none
    else if fmtHas format_attr (pstr "zerodash")
        && (text = pstr "—" || text = pstr "-" || text = pstr "–" || text = []) then
      .ok (some (.fin (decOf 0 0)))
    else
      let clean := removeChar '%' (removeChar '$' (removeChar ',' text))
      if clean = [] || clean = pstr "—" || clean = pstr "-" || clean = pstr "–" then
        .ok none
      else
        match pyDecimalOfStr clean with
        | none => .ok none
        | some v0 =>
          let v1 := if sign = some (pstr "-") then pyNegD v0 else v0
          let v2 := apply_scale v1 scale
          if negate_to_positive then
            match pyLtZeroD v2 with
            | none => .error .invalidOperation
            | some b => .ok (some (if b then pyNegD v2 else v2))
          else .ok (some v2)

/-- A calendar date as produced by `datetime.strptime(...).date()`. -/
structure PyDate where
  year : ℕ
  month : ℕ
  day : ℕ
deriving DecidableEq

/-- Gregorian leap-year test (as in `datetime`). -/
def isLeapYear (y : ℕ) : Bool :=
  y % 4 = 0 && (y % 100 ≠ 0 || y % 400 = 0)

/-- Days in a month (as validated by the `datetime` constructor). -/
def daysInMonth (y m : ℕ) : ℕ :=
  if m = 2 then (if isLeapYear y then 29 else 28)
  else if m = 4 || m = 6 || m = 9 || m = 11 then 30
  else 31

/-- The `datetime(year, month, day)` constructor: `none` models the
`ValueError` raised for an out-of-range date. -/
def mkValidDate (y m d : ℕ) : Option PyDate :=
  if 1 ≤ y && y ≤ 9999 && 1 ≤ m && m ≤ 12 && 1 ≤ d && d ≤ daysInMonth y m then
    some ⟨y, m, d⟩
  else none

/-- Numeric value of an ASCII digit character. -/
def digitVal (c : Char) : ℕ := c.toNat - 48

/-- Candidate matches for the `%m` month directive.  `_strptime` compiles
`%m` to `(1[0-2]|0[1-9]|[1-9])`; the alternatives are tried in that order
with backtracking, hence a list of candidates (two-digit first). -/
def monthCands (s : PyStr) : List (ℕ × PyStr) :=
  (match s with
   | a :: b :: t =>
     if (a = '1' && '0' ≤ b && b ≤ '2') || (a = '0' && '1' ≤ b && b ≤ '9') then
       [(digitVal a * 10 + digitVal b, t)]
     else []
   | _ => []) ++
  (match s with
   | a :: t => if '1' ≤ a && a ≤ '9' then [(digitVal a, t)] else []
   | _ => [])

/-- Candidate matches for the `%d` day directive: `_strptime` compiles `%d`
to `(3[01]|[12]\d|0[1-9]|[1-9])`, tried in order with backtracking. -/
def dayCands (s : PyStr) : List (ℕ × PyStr) :=
  (match s with
   | a :: b :: t =>
     if (a = '3' && '0' ≤ b && b ≤ '1') || (('1' ≤ a && a ≤ '2') && b.isDigit)
         || (a = '0' && '1' ≤ b && b ≤ '9') then
       [(digitVal a * 10 + digitVal b, t)]
     else []
   | _ => []) ++
  (match s with
   | a :: t => if '1' ≤ a && a ≤ '9' then [(digitVal a, t)] else []
   | _ => [])

/-- The `%Y` year directive: `_strptime` compiles it to exactly four
digits. -/
def year4 (s : PyStr) : Option (ℕ × PyStr) :=
  match s with
  | a :: b :: c :: d :: t =>
    if a.isDigit && b.isDigit && c.isDigit && d.isDigit then
      some (digitVal a * 1000 + digitVal b * 100 + digitVal c * 10 + digitVal d, t)
    else none
  | _ => none

/-- Whitespace run `\s+` (one or more characters): `_strptime` replaces every
whitespace run in a format string by `\s+`. -/
def skipWs1 (s : PyStr) : Option PyStr :=
  match s with
  | c :: t => if isPySpace c then some (t.dropWhile isPySpace) else none
  | [] => none

/-- Model of `strptime(s, "%m/%d/%Y")`: the whole string must be consumed
("unconverted data remains" otherwise), then the `datetime` constructor
validates the day of month. -/
def tryMDY (s : PyStr) : Option PyDate :=
  firstSome (fun mc =>
    match mc.2 with
    | '/' :: r2 =>
      firstSome (fun dc =>
        match dc.2 with
        | '/' :: r4 =>
          match year4 r4 with
          | some (y, []) => mkValidDate y mc.1 dc.1
          | _ => none
        | _ => none) (dayCands r2)
    | _ => none) (monthCands s)

/-- Model of `strptime(s, "%Y-%m-%d")`. -/
def tryYMD (s : PyStr) : Option PyDate :=
  match year4 s with
  | some (y, '-' :: r1) =>
    firstSome (fun mc =>
      match mc.2 with
      | '-' :: r3 =>
        firstSome (fun dc =>
          if dc.2 = [] then mkValidDate y mc.1 dc.1 else none) (dayCands r3)
      | _ => none) (monthCands r1)
  | _ => none

/-- Full English month names for `%B` (the C/en locale list used by
`_strptime`; matching is case-insensitive). -/
def monthsFull : List (PyStr × ℕ) :=
  [(pstr "january", 1), (pstr "february", 2), (pstr "march", 3),
   (pstr "april", 4), (pstr "may", 5), (pstr "june", 6), (pstr "july", 7),
   (pstr "august", 8), (pstr "september", 9), (pstr "october", 10),
   (pstr "november", 11), (pstr "december", 12)]

/-- Abbreviated English month names for `%b`. -/
def monthsAbbr : List (PyStr × ℕ) :=
  [(pstr "jan", 1), (pstr "feb", 2), (pstr "mar", 3), (pstr "apr", 4),
   (pstr "may", 5), (pstr "jun", 6), (pstr "jul", 7), (pstr "aug", 8),
   (pstr "sep", 9), (pstr "oct", 10), (pstr "nov", 11), (pstr "dec", 12)]

/-- Match one month name from the list, case-insensitively (no month name
in either list is a prefix of another, so list order is immaterial). -/
def matchMonthName (names : List (PyStr × ℕ)) (s : PyStr) : Option (ℕ × PyStr) :=
  firstSome (fun nv =>
    if pyLower (s.take nv.1.length) = nv.1 then some (nv.2, s.drop nv.1.length)
    else none) names

/-- Model of `strptime(s, "%B %d, %Y")` / `strptime(s, "%b %d, %Y")`: month name,
whitespace, day, a literal comma, whitespace, four-digit year. -/
def tryBdY (names : List (PyStr × ℕ)) (s : PyStr) : Option PyDate :=
  match matchMonthName names s with
  | none => none
  | some (m, r1) =>
    match skipWs1 r1 with
    | none => none
    | some r2 =>
      firstSome (fun dc =>
        match dc.2 with
        | ',' :: r4 =>
          match skipWs1 r4 with
          | some r5 =>
            match year4 r5 with
            | some (y, []) => mkValidDate y m dc.1
            | _ => none
          | none => none
        | _ => none) (dayCands r2)

/-- Embedding of `_parse_date` (src/etf_pipeline/parsers/finhigh.py):
try the formats `%m/%d/%Y`, `%Y-%m-%d`, `%B %d, %Y`, `%b %d, %Y` in order,
catching each `ValueError`; an unparseable string yields `None`. -/
def parse_date (value : Option PyStr) : Option PyDate :=
  match value with
  | none => none
  | some x =>
    if x = [] then none
    else
      let s := pyStrip x
      match tryMDY s with
      | some d => some d
      | none =>
        match tryYMD s with
        | some d => some d
        | none =>
          match tryBdY monthsFull s with
          | some d => some d
          | none => tryBdY monthsAbbr s

/-- Split a string at the first occurrence of `pat`: returns the part
before the match and the part after it. -/
def splitAtFirst (pat : PyStr) : PyStr → Option (PyStr × PyStr)
  | [] => if hasPrefixL pat [] then some ([], []) else none
  | c :: t =>
    if hasPrefixL pat (c :: t) then some ([], (c :: t).drop pat.length)
    else (splitAtFirst pat t).map (fun p => (c :: p.1, p.2))

/-- Model of `re.findall(r'<OPEN>(.*?)</CLOSE>', s, re.DOTALL)`: the scan
finds the leftmost open tag, the lazy `(.*?)` extends to the first close
tag after it, and scanning resumes after the match.  (If an open tag has no
close tag after it, no later start position can produce a match either, so
returning `[]` there agrees with the regex engine.)  The recursion is fuelled
for structural termination: every successful step consumes at least one
character of the nonempty close tag, so `s.length + 1` units never run out
for the call sites in this file. -/
def findAllBlocksAux (openT closeT : PyStr) : ℕ → PyStr → List PyStr
  | 0, _ => []
  | fuel + 1, s =>
    match splitAtFirst openT s with
    | none => []
    | some (_, rest) =>
      match splitAtFirst closeT rest with
      | none => []
      | some (blk, rest2) => blk :: findAllBlocksAux openT closeT fuel rest2

/-- All non-overlapping `<OPEN>...</CLOSE>` block bodies, left to right. -/
def findAllBlocks (openT closeT : PyStr) (s : PyStr) : List PyStr :=
  findAllBlocksAux openT closeT (s.length + 1) s

/-- Model of `re.search(r'<TAG>(.*?)(?:\n|<)', s)`: the lazy group captures
the text after the first occurrence of the tag up to the first newline or
`<`.  When neither terminator occurs in the remainder there is no match at
this occurrence — and since the tag itself starts with `<`, no later
occurrence of the tag can exist in a remainder with no `<`, so the regex
engine finds no match at all, matching the `none` here. -/
def searchTagLine (tag : PyStr) (s : PyStr) : Option PyStr :=
  match splitAtFirst tag s with
  | none => none
  | some (_, rest) =>
    let cap := rest.takeWhile (fun c => c ≠ '\n' && c ≠ '<')
    if cap.length = rest.length then none else some cap

/-- The result dictionary of `parse_series_class_info`
(src/etf_pipeline/sgml.py): `series`, `classes` and `tickers` are Python
dicts, modelled as insertion-ordered association lists. -/
structure SeriesClassInfo where
  series : List (PyStr × PyStr)
  classes : List ((PyStr × PyStr) × PyStr)
  tickers : List (PyStr × PyStr)
deriving DecidableEq

/-- Processing of one `<CLASS-CONTRACT>` block inside a series block
(the inner loop of `parse_series_class_info`). -/
def processClassBlock (normalized_series : PyStr) (acc : SeriesClassInfo)
    (cblk : PyStr) : SeriesClassInfo :=
  match searchTagLine (pstr "<CLASS-CONTRACT-ID>") cblk with
  | none => acc
  | some rawCid =>
    let class_id := pyStrip rawCid
    let acc1 :=
      match searchTagLine (pstr "<CLASS-CONTRACT-NAME>") cblk with
      | some rawCn =>
        let normalized_class := pyLower (pyStrip rawCn)
        { acc with
          classes := alistUpdate (normalized_series, normalized_class) class_id acc.classes }
      | none => acc
    match searchTagLine (pstr "<CLASS-CONTRACT-TICKER-SYMBOL>") cblk with
    | some rawTk =>
      let ticker := pyStrip rawTk
      if ticker ≠ [] then
        { acc1 with tickers := alistUpdate ticker class_id acc1.tickers }
      else acc1
    | none => acc1

/-- Processing of one `<SERIES>` block (the outer loop of
`parse_series_class_info`): a block without a series name is skipped; a
series id maps to the series name via plain dict assignment; nested
class-contract blocks populate `classes` and `tickers`. -/
def processSeriesBlock (acc : SeriesClassInfo) (blk : PyStr) : SeriesClassInfo :=
  match searchTagLine (pstr "<SERIES-NAME>") blk with
  | none => acc
  | some rawName =>
    let series_name := pyStrip rawName
    let normalized_series := pyLower series_name
    let acc1 :=
      match searchTagLine (pstr "<SERIES-ID>") blk with
      | some rawId =>
        let series_id := pyStrip rawId
        if series_id ≠ [] && series_name ≠ [] then
          { acc with series := alistUpdate series_id series_name acc.series }
        else acc
      | none => acc
    (findAllBlocks (pstr "<CLASS-CONTRACT>") (pstr "</CLASS-CONTRACT>")
        blk).foldl (processClassBlock normalized_series) acc1

/-- Embedding of `parse_series_class_info` (src/etf_pipeline/sgml.py). -/
def parse_series_class_info (header_text : PyStr) : SeriesClassInfo :=
  if header_text = [] then ⟨[], [], []⟩
  else
    (findAllBlocks (pstr "<SERIES>") (pstr "</SERIES>")
        header_text).foldl processSeriesBlock ⟨[], [], []⟩

/-- The bidirectional substring test used by the reconciliation loop in
`_process_cik_finhigh` (src/etf_pipeline/parsers/finhigh.py):
`stored in candidate or candidate in stored`. -/
def bidirSub (stored cand : PyStr) : Bool :=
  pyIn stored cand || pyIn cand stored

/-- The name test applied to one stored `by_name` entry: both the series
name and the class name must pass the bidirectional substring test. -/
def nameEntryTest (entry : (PyStr × PyStr) × PyStr) (fn cn : PyStr) : Bool :=
  bidirSub entry.1.1 fn && bidirSub entry.1.2 cn

/-- Embedding of the reconciliation logic of `_process_cik_finhigh`
(src/etf_pipeline/parsers/finhigh.py, the block that computes
`matched_class_id`): normalize the candidate fund/class names, scan the
`by_name` dict in insertion order taking the first entry whose series and
class names both pass the bidirectional substring test, and fall back to
the ticker-substring scan when no name entry matched (Python truthiness:
an empty matched id also falls through to the ticker loop). -/
def match_table_class_id (by_name : List ((PyStr × PyStr) × PyStr))
    (by_ticker : List (PyStr × PyStr)) (fund_name class_name : PyStr) :
    Option PyStr :=
  let fund_name_norm := pyLower fund_name
  let class_name_norm := pyLower class_name
  let m1 : Option PyStr :=
    (by_name.find? (fun e => nameEntryTest e fund_name_norm class_name_norm)).map
      (fun e => e.2)
  let truthy : Bool := match m1 with | some s => s ≠ [] | none => false
  if truthy then m1
  else
    (by_ticker.find? (fun e =>
      pyIn (pyLower e.1) fund_name_norm || pyIn (pyLower e.1) class_name_norm)).map
      (fun e => e.2)

/-- One `tr` row of an HTML table, as seen through BeautifulSoup: the
`get_text()` of each `td`/`th` cell (in document order) and the
`get_text()` of the row element itself. -/
structure Row where
  cells : List PyStr
  text : PyStr

/-- The helper `get_value(row_idx, col_idx)` of `parse_financial_highlights_table`:
the stripped text of the cell at the given column, `None` when the row or
column index is out of range. -/
def get_value (rows : List Row) (row_idx col_idx : ℕ) : Option PyStr :=
  match rows[row_idx]? with
  | none => none
  | some row =>
    match row.cells[col_idx]? with
    | none => none
    | some cell => some (pyStrip cell)

/-- The helper `get_row_label(row_idx)`: the stripped, lower-cased text of the first
cell of a row (empty for a missing row or a row without cells). -/
def get_row_label (rows : List Row) (row_idx : ℕ) : PyStr :=
  match rows[row_idx]? with
  | none => []
  | some row =>
    match row.cells with
    | [] => []
    | c :: _ => pyLower (pyStrip c)

/-- The `row_map` dict of `parse_financial_highlights_table`: for each
semantic role, the index of the last row classified into it. -/
structure RowMap where
  nav_end : Option ℕ := none
  nav_beginning : Option ℕ := none
  net_investment_income : Option ℕ := none
  net_realized_unrealized_gain : Option ℕ := none
  total_from_operations : Option ℕ := none
  equalization : Option ℕ := none
  dist_net_investment_income : Option ℕ := none
  dist_realized_gains : Option ℕ := none
  dist_return_of_capital : Option ℕ := none
  dist_total : Option ℕ := none
  total_return : Option ℕ := none
  net_assets_end : Option ℕ := none
  expense_ratio : Option ℕ := none
  portfolio_turnover : Option ℕ := none

/-- The row-classification `if`/`elif` chain of
`parse_financial_highlights_table`, applied to one row's label.  A dict
assignment overwrites, so a later row with the same role replaces the
earlier index. -/
def classify_row (rm : RowMap) (i : ℕ) (label : PyStr) : RowMap :=
  let has (p : String) : Bool := pyIn (pstr p) label
  if has "net asset value" && has "end" then
    { rm with nav_end := some i }
  else if has "net asset value" && has "beginning" then
    { rm with nav_beginning := some i }
  else if has "net investment income" && !has "ratio" && !has "average"
      && !has "dividend" then
    { rm with net_investment_income := some i }
  else if has "realized" && has "unrealized" && has "gain" then
    { rm with net_realized_unrealized_gain := some i }
  else if has "total from investment" || (has "total" && has "investment operations") then
    { rm with total_from_operations := some i }
  else if has "equalization" && !has "net" then
    { rm with equalization := some i }
  else if (has "dividend" || has "distribution") && has "net investment income" then
    { rm with dist_net_investment_income := some i }
  else if has "distribution" && has "realized"
      && (has "capital gain" || has "capital gains") then
    { rm with dist_realized_gains := some i }
  else if has "return of capital" then
    { rm with dist_return_of_capital := some i }
  else if has "total distribution" then
    { rm with dist_total := some i }
  else if has "total return" && !has "ratio" then
    { rm with total_return := some i }
  else if has "net assets" && has "end" && has "million" then
    { rm with net_assets_end := some i }
  else if has "ratio" && has "expense" then
    { rm with expense_ratio := some i }
  else if has "portfolio turnover" then
    { rm with portfolio_turnover := some i }
  else rm

/-- The `for i, row in enumerate(rows)` classification loop. -/
def build_row_map (rows : List Row) : RowMap :=
  (List.range rows.length).foldl
    (fun rm i => classify_row rm i (get_row_label rows i)) {}

/-- Match `\d{1,2}` greedily at the head of a string: both regex
alternatives (two digits first, then one), as candidate list for
backtracking. -/
def digits12Cands (s : PyStr) : List (PyStr × PyStr) :=
  (match s with
   | a :: b :: t => if a.isDigit && b.isDigit then [([a, b], t)] else []
   | _ => []) ++
  (match s with
   | a :: t => if a.isDigit then [([a], t)] else []
   | _ => [])

/-- Match `\d{4}` at the head of a string, returning the matched digits. -/
def year4At (s : PyStr) : Option PyStr :=
  match s with
  | a :: b :: c :: d :: _ =>
    if a.isDigit && b.isDigit && c.isDigit && d.isDigit then some [a, b, c, d]
    else none
  | _ => none

/-- Match `\d{1,2}/\d{1,2}/\d{4}` anchored at the head of a string,
returning the whole matched text (the regex group spans the whole
pattern). -/
def slashDateAt (s : PyStr) : Option PyStr :=
  firstSome (fun g1 =>
    match g1.2 with
    | '/' :: r2 =>
      firstSome (fun g2 =>
        match g2.2 with
        | '/' :: r4 =>
          match year4At r4 with
          | some y => some (g1.1 ++ '/' :: g2.1 ++ '/' :: y)
          | none => none
        | _ => none) (digits12Cands r2)
    | _ => none) (digits12Cands s)

/-- Model of `re.search(r'(\d{1,2}/\d{1,2}/\d{4})', s)`: leftmost match. -/
def searchSlashDate : PyStr → Option PyStr
  | [] => none
  | c :: t =>
    match slashDateAt (c :: t) with
    | some m => some m
    | none => searchSlashDate t

/-- Model of `re.search(r'\d{4}', s)`: leftmost four consecutive digits. -/
def searchYear4 : PyStr → Option PyStr
  | [] => none
  | c :: t =>
    match year4At (c :: t) with
    | some m => some m
    | none => searchYear4 t

/-- Word characters `\w` of the `re` module (ASCII fragment): letters, digits, underscore. -/
def isWordChar (c : Char) : Bool := c.isAlphanum || c = '_'

/-- Case-insensitive literal prefix test (for a pre-lowercased pattern),
modelling `re.IGNORECASE` literals. -/
def ciHasPrefixL (pat s : PyStr) : Bool :=
  pyLower (s.take pat.length) = pat

/-- Match `year ended\s+(\w+ \d{1,2})` (with `re.IGNORECASE`) anchored at
the head of a string, returning group 1.  The greedy `\w+` is maximal and
cannot backtrack into the following literal space (a shorter run would
leave a word character where the space is required), and `\d{1,2}` is
greedy with nothing after it, so the match is deterministic. -/
def yearEndedAt (s : PyStr) : Option PyStr :=
  if ciHasPrefixL (pstr "year ended") s then
    match skipWs1 (s.drop 10) with
    | none => none
    | some r2 =>
      let w := r2.takeWhile isWordChar
      if w = [] then none
      else
        match r2.drop w.length with
        | ' ' :: r3 =>
          let ds := (r3.takeWhile Char.isDigit).take 2
          if ds = [] then none else some (w ++ ' ' :: ds)
        | _ => none
  else none

/-- Model of `re.search(r'year ended\s+(\w+ \d{1,2})', s, re.IGNORECASE)`:
leftmost position where the pattern matches. -/
def searchYearEnded : PyStr → Option PyStr
  | [] => none
  | c :: t =>
    match yearEndedAt (c :: t) with
    | some m => some m
    | none => searchYearEnded t

/-- The inner `for cell in next_cells` loop of the fiscal-year extraction:
the first cell whose stripped text contains four consecutive digits
(`break`s there, whether or not the assembled date later parses). -/
def firstCellYear (cells : List PyStr) : Option PyStr :=
  firstSome (fun c => searchYear4 (pyStrip c)) cells

/-- The `for i in range(min(5, len(rows)))` fiscal-year-end loop of
`parse_financial_highlights_table`, over the list of remaining indices.
A direct slash-date match `break`s unconditionally (even when
`_parse_date` fails); the "Year Ended <Month> <Day>," branch `break`s only
when a date was actually parsed. -/
def fiscalLoop (rows : List Row) : List ℕ → Option PyDate
  | [] => none
  | i :: rest =>
    let rt := match rows[i]? with | some r => r.text | none => []
    match searchSlashDate rt with
    | some ds => parse_date (some ds)
    | none =>
      if pyIn (pstr "year ended") (pyLower rt) then
        match searchYearEnded rt with
        | some md =>
          let fy :=
            match rows[i + 1]? with
            | some nxt =>
              match firstCellYear nxt.cells with
              | some y => parse_date (some (md ++ pstr ", " ++ y))
              | none => none
            | none => none
          match fy with
          | some d => some d
          | none => fiscalLoop rows rest
        | none => fiscalLoop rows rest
      else fiscalLoop rows rest

/-- Fiscal-year-end extraction from the first five rows. -/
def extract_fiscal_year_end (rows : List Row) : Option PyDate :=
  fiscalLoop rows (List.range (min 5 rows.length))

/-- The output record of `parse_financial_highlights_table` (its `result`
dict, with the `operating`/`distribution`/`ratios` sub-dicts flattened into
explicit fields). -/
structure FHRecord where
  nav_beginning : Option PyDec
  net_investment_income : Option PyDec
  net_realized_unrealized_gain : Option PyDec
  total_from_operations : Option PyDec
  equalization : Option PyDec
  nav_end : Option PyDec
  total_return : Option PyDec
  dist_net_investment_income : Option PyDec
  dist_realized_gains : Option PyDec
  dist_return_of_capital : Option PyDec
  dist_total : Option PyDec
  expense_ratio : Option PyDec
  portfolio_turnover : Option PyDec
  net_assets_end : Option PyDec
  fiscal_year_end : Option PyDate
  math_validated : Bool
deriving DecidableEq

/-- Field lookup `_parse_decimal(get_value(row_map.get(k))) if k in row_map else None`. -/
def fieldValue (rows : List Row) (idx : Option ℕ) : Option PyDec :=
  match idx with
  | some i => parse_decimal (get_value rows i 1)
  | none => none

/-- Python `x or Decimal('0')` for the optional equalization value: `None` and
zero are falsy and replaced by `Decimal('0')`; any other value (including
a NaN, which is truthy) passes through. -/
def pyOr0 (x : Option PyDec) : PyDec :=
  match x with
  | none => .fin ⟨0, 0⟩
  | some d => if pyTruthyD d then d else .fin ⟨0, 0⟩

/-- Field extraction of `parse_financial_highlights_table` over classified
rows, including the net-assets "in millions" rescaling and the fiscal-year
extraction; `math_validated` starts out `False` as in the `result` dict. -/
def build_record (rows : List Row) : FHRecord :=
  let rm := build_row_map rows
  let net_assets_end_val : Option PyDec :=
    match rm.net_assets_end with
    | some i =>
      match get_value rows i 1 with
      | some t =>
        if t ≠ [] then
          match parse_decimal (some t) with
          | some v =>
            if pyTruthyD v
                && pyIn (pstr "million")
                  (pyLower (get_row_label rows (rm.net_assets_end.getD 0))) then
              some (pyMul1e6 v)
            else some v
          | none => none
        else none
      | none => none
    | none => none
  { nav_beginning := fieldValue rows rm.nav_beginning
    net_investment_income := fieldValue rows rm.net_investment_income
    net_realized_unrealized_gain := fieldValue rows rm.net_realized_unrealized_gain
    total_from_operations := fieldValue rows rm.total_from_operations
    equalization := fieldValue rows rm.equalization
    nav_end := fieldValue rows rm.nav_end
    total_return := fieldValue rows rm.total_return
    dist_net_investment_income := fieldValue rows rm.dist_net_investment_income
    dist_realized_gains := fieldValue rows rm.dist_realized_gains
    dist_return_of_capital := fieldValue rows rm.dist_return_of_capital
    dist_total := fieldValue rows rm.dist_total
    expense_ratio := fieldValue rows rm.expense_ratio
    portfolio_turnover := fieldValue rows rm.portfolio_turnover
    net_assets_end := net_assets_end_val
    fiscal_year_end := extract_fiscal_year_end rows
    math_validated := false }

/-- The math-validation tail of `parse_financial_highlights_table`:
when `nav_beginning`, `total_from_operations`, `dist_total` and `nav_end`
are all present, compare `|nav_beg + total_ops + dist_total + equalization
− nav_end|` against `Decimal('0.01')`.  The comparison raises
`InvalidOperation` when the discrepancy is a NaN (Python's default decimal
context); otherwise `math_validated` is set to the comparison result.
When any required operand is missing, validation is skipped and
`math_validated` stays `False`. -/
def finish_math_validation (r : FHRecord) : Except PyErr FHRecord :=
  match r.nav_beginning, r.total_from_operations, r.dist_total, r.nav_end with
  | some nav_beg, some total_ops, some dist_tot, some nav_endv =>
    let equal := pyOr0 r.equalization
    let expected := pyAddD (pyAddD (pyAddD nav_beg total_ops) dist_tot) equal
    let discrepancy := pyAbsD (pySubD expected nav_endv)
    match pyLeD discrepancy (.fin ⟨1, 2⟩) with
    | some b => .ok { r with math_validated := b }
    | none => .error .invalidOperation
  | _, _, _, _ => .ok { r with math_validated := false }

/-- Embedding of `parse_financial_highlights_table`
(src/etf_pipeline/parsers/finhigh.py).  The argument models
`BeautifulSoup(html).find("table")` followed by `find_all("tr")`:
`none` when the HTML contains no table element, otherwise the rows. -/
def parse_financial_highlights_table (doc : Option (List Row)) :
    Except PyErr FHRecord :=
  match doc with
  | none => .error .noTable
  | some rows =>
    if rows.length < 10 then .error .tooFewRows
    else finish_math_validation (build_record rows)

/-- The equalization operand of the math-validation formula as a rational:
the value when present and finite, `0` when absent (mirroring the spec's
"equalization is taken as 0 when absent"). -/
def eqRat (x : Option PyDec) : ℚ :=
  match x with
  | some (.fin q) => q.toRat
  | _ => 0

/-- A ten-row Financial Highlights table (the regulated row order of Form
N-1A Item 13) with consistent per-share figures; used as concrete input for
the math-validation claim. -/
def t1rows : List Row :=
  [ ⟨[pstr "", pstr "12/31/2024"], pstr "12/31/2024"⟩,
    ⟨[pstr "Net asset value, beginning of period", pstr "$102.18"], pstr ""⟩,
    ⟨[pstr "Net investment income", pstr "1.234"], pstr ""⟩,
    ⟨[pstr "Net realized and unrealized gain", pstr "13.103"], pstr ""⟩,
    ⟨[pstr "Total from investment operations", pstr "14.337"], pstr ""⟩,
    ⟨[pstr "Total distributions", pstr "(1.367)"], pstr ""⟩,
    ⟨[pstr "Net asset value, end of period", pstr "$115.15"], pstr ""⟩,
    ⟨[pstr "Total return", pstr "14.21%"], pstr ""⟩,
    ⟨[pstr "Ratio of expenses to average net assets", pstr "0.05%"], pstr ""⟩,
    ⟨[pstr "Portfolio turnover rate", pstr "8%"], pstr ""⟩ ]

/-- The record extracted from `t1rows`. -/
def t1rec : FHRecord :=
  { nav_beginning := some (.fin ⟨10218, 2⟩)
    net_investment_income := some (.fin ⟨1234, 3⟩)
    net_realized_unrealized_gain := some (.fin ⟨13103, 3⟩)
    total_from_operations := some (.fin ⟨14337, 3⟩)
    equalization := none
    nav_end := some (.fin ⟨11515, 2⟩)
    total_return := some (.fin ⟨1421, 4⟩)
    dist_net_investment_income := none
    dist_realized_gains := none
    dist_return_of_capital := none
    dist_total := some (.fin ⟨-1367, 3⟩)
    expense_ratio := some (.fin ⟨5, 4⟩)
    portfolio_turnover := some (.fin ⟨8, 2⟩)
    net_assets_end := none
    fiscal_year_end := some ⟨2024, 12, 31⟩
    math_validated := true }

/-- Rows equal to `t1rows` except the NAV-beginning cell reads `NaN`: `Decimal("NaN")`
is a valid quiet NaN, so all four required operands are present and the
math-validation ordering comparison signals `InvalidOperation`. -/
def t2rows : List Row :=
  [ ⟨[pstr "", pstr "12/31/2024"], pstr "12/31/2024"⟩,
    ⟨[pstr "Net asset value, beginning of period", pstr "NaN"], pstr ""⟩,
    ⟨[pstr "Net investment income", pstr "1.234"], pstr ""⟩,
    ⟨[pstr "Net realized and unrealized gain", pstr "13.103"], pstr ""⟩,
    ⟨[pstr "Total from investment operations", pstr "14.337"], pstr ""⟩,
    ⟨[pstr "Total distributions", pstr "(1.367)"], pstr ""⟩,
    ⟨[pstr "Net asset value, end of period", pstr "$115.15"], pstr ""⟩,
    ⟨[pstr "Total return", pstr "14.21%"], pstr ""⟩,
    ⟨[pstr "Ratio of expenses to average net assets", pstr "0.05%"], pstr ""⟩,
    ⟨[pstr "Portfolio turnover rate", pstr "8%"], pstr ""⟩ ]

/-- A two-row table (fewer than the required ten rows). -/
def t0short : List Row :=
  [ ⟨[pstr "a"], pstr "a"⟩, ⟨[pstr "b"], pstr "b"⟩ ]

/-- An SGML header with two SERIES blocks carrying the same series id
`S000001` but different names. -/
def hdrTwoSeries : PyStr :=
  pstr "<SERIES><SERIES-NAME>Alpha Fund\n<SERIES-ID>S000001\n</SERIES><SERIES><SERIES-NAME>Beta Fund\n<SERIES-ID>S000001\n</SERIES>"

/-- The first SERIES block of `hdrTwoSeries` alone. -/
def hdrFirstSeries : PyStr :=
  pstr "<SERIES><SERIES-NAME>Alpha Fund\n<SERIES-ID>S000001\n</SERIES>"

/-- A `by_name` identity map in which the first entry substring-matches a
candidate pair that is exactly equal to the second entry's key. -/
def byNameShadow : List ((PyStr × PyStr) × PyStr) :=
  [((pstr "fund", pstr "shares"), pstr "C1"),
   ((pstr "big fund", pstr "x shares"), pstr "C2")]

theorem Dec.toRat_norm (m : Int) (e : ℕ) :
    (Dec.norm m e).toRat = (m : ℚ) / 10 ^ e := by
  induction e generalizing m with
  | zero => simp [Dec.norm, Dec.toRat]
  | succ e ih =>
    show (if m % 10 = 0 then Dec.norm (m / 10) e else ⟨m, e + 1⟩).toRat = _
    by_cases h : m % 10 = 0
    · rw [if_pos h, ih]
      obtain ⟨k, rfl⟩ : ∃ k, m = 10 * k := ⟨m / 10, by omega⟩
      have h1 : (10 : Int) * k / 10 = k := by omega
      rw [h1]
      push_cast
      rw [pow_succ]
      field_simp
      ring
    · rw [if_neg h]
      simp [Dec.toRat]

theorem Dec.toRat_negD (d : Dec) : d.negD.toRat = -d.toRat := by
  simp [Dec.negD, Dec.toRat, neg_div]

theorem Dec.toRat_absD (d : Dec) : d.absD.toRat = |d.toRat| := by
  simp only [Dec.absD, Dec.toRat]
  rw [abs_div]
  congr 1
  · push_cast
    rfl
  · rw [abs_pow]
    norm_num

theorem Dec.toRat_addD (a b : Dec) : (a.addD b).toRat = a.toRat + b.toRat := by
  simp only [Dec.addD]
  rw [Dec.toRat_norm]
  simp only [Dec.toRat]
  push_cast
  rw [pow_add]
  field_simp

theorem Dec.toRat_subD (a b : Dec) : (a.subD b).toRat = a.toRat - b.toRat := by
  simp [Dec.subD, Dec.toRat_addD, Dec.toRat_negD]
  ring

theorem Dec.decLe_iff (a b : Dec) : a.decLe b = true ↔ a.toRat ≤ b.toRat := by
  simp only [Dec.decLe, Dec.toRat, decide_eq_true_eq]
  rw [div_le_div_iff (by positivity) (by positivity)]
  constructor
  · intro h
    exact_mod_cast h
  · intro h
    exact_mod_cast h

theorem Dec.ltZero_iff (a : Dec) : a.ltZero = true ↔ a.toRat < 0 := by
  simp only [Dec.ltZero, Dec.toRat, decide_eq_true_eq]
  rw [div_neg_iff]
  constructor
  · intro h
    right
    constructor
    · exact_mod_cast h
    · positivity
  · rintro (⟨-, h2⟩ | ⟨h1, -⟩)
    · exact absurd h2 (not_lt.mpr (le_of_lt (by positivity)))
    · exact_mod_cast h1

theorem pyAddD_nan_left (x : PyDec) : pyAddD .nan x = .nan := by cases x <;> rfl

theorem pyAddD_nan_right (x : PyDec) : pyAddD x .nan = .nan := by cases x <;> rfl

theorem pySubD_nan_left (x : PyDec) : pySubD .nan x = .nan := by cases x <;> rfl

theorem pySubD_nan_right (x : PyDec) : pySubD x .nan = .nan := by cases x <;> rfl

theorem pyLeD_nan_left (x : PyDec) : pyLeD .nan x = none := by cases x <;> rfl

theorem pyOr0_toRat (x : Option PyDec) (d : Dec) (h : pyOr0 x = .fin d) :
    d.toRat = eqRat x := by
  cases x with
  | none =>
    simp only [pyOr0] at h
    cases h
    simp [eqRat, Dec.toRat]
  | some p =>
    cases p with
    | nan => simp [pyOr0, pyTruthyD] at h
    | fin q =>
      simp only [pyOr0, pyTruthyD] at h
      by_cases hq : q.m = 0
      · rw [if_neg (by simp [hq])] at h
        cases h
        simp [eqRat, Dec.toRat, hq]
      · rw [if_pos (by simp [hq])] at h
        cases h
        simp [eqRat]

theorem finish_math_validation_iff (r0 r : FHRecord)
    (h : finish_math_validation r0 = .ok r) :
    (r.math_validated = true ↔ ∃ a b c d : Dec,
      r.nav_beginning = some (.fin a) ∧ r.total_from_operations = some (.fin b) ∧
      r.dist_total = some (.fin c) ∧ r.nav_end = some (.fin d) ∧
      |a.toRat + b.toRat + c.toRat + eqRat r.equalization - d.toRat| ≤ 1 / 100) := by
  unfold finish_math_validation at h
  cases hnb : r0.nav_beginning with
  | none =>
    simp only [hnb] at h
    have hr := Except.ok.inj h
    subst hr
    constructor
    · intro hmv
      simp at hmv
    · rintro ⟨a, b, c, d, h1, -, -, -, -⟩
      simp at h1
  | some nb =>
  cases hto : r0.total_from_operations with
  | none =>
    simp only [hnb, hto] at h
    have hr := Except.ok.inj h
    subst hr
    constructor
    · intro hmv
      simp at hmv
    · rintro ⟨a, b, c, d, -, h2, -, -, -⟩
      simp at h2
  | some tp =>
  cases hdt : r0.dist_total with
  | none =>
    simp only [hnb, hto, hdt] at h
    have hr := Except.ok.inj h
    subst hr
    constructor
    · intro hmv
      simp at hmv
    · rintro ⟨a, b, c, d, -, -, h3, -, -⟩
      simp at h3
  | some dt =>
  cases hne : r0.nav_end with
  | none =>
    simp only [hnb, hto, hdt, hne] at h
    have hr := Except.ok.inj h
    subst hr
    constructor
    · intro hmv
      simp at hmv
    · rintro ⟨a, b, c, d, -, -, -, h4, -⟩
      simp at h4
  | some ne2 =>
  simp only [hnb, hto, hdt, hne] at h
  cases hle : pyLeD (pyAbsD (pySubD (pyAddD (pyAddD (pyAddD nb tp) dt)
      (pyOr0 r0.equalization)) ne2)) (.fin ⟨1, 2⟩) with
  | none =>
    rw [hle] at h
    cases h
  | some bb =>
  rw [hle] at h
  have hr := Except.ok.inj h
  subst hr
  cases nb with
  | nan =>
    rw [pyAddD_nan_left, pyAddD_nan_left, pyAddD_nan_left, pySubD_nan_left,
      show pyAbsD .nan = .nan from rfl, pyLeD_nan_left] at hle
    cases hle
  | fin a =>
  cases tp with
  | nan =>
    rw [pyAddD_nan_right, pyAddD_nan_left, pyAddD_nan_left, pySubD_nan_left,
      show pyAbsD .nan = .nan from rfl, pyLeD_nan_left] at hle
    cases hle
  | fin b =>
  cases dt with
  | nan =>
    rw [show pyAddD (PyDec.fin a) (PyDec.fin b) = .fin (a.addD b) from rfl,
      pyAddD_nan_right, pyAddD_nan_left, pySubD_nan_left,
      show pyAbsD .nan = .nan from rfl, pyLeD_nan_left] at hle
    cases hle
  | fin c =>
  cases hpe : pyOr0 r0.equalization with
  | nan =>
    rw [hpe, show pyAddD (PyDec.fin a) (PyDec.fin b) = .fin (a.addD b) from rfl,
      show pyAddD (PyDec.fin (a.addD b)) (PyDec.fin c) = .fin ((a.addD b).addD c) from rfl,
      pyAddD_nan_right, pySubD_nan_left,
      show pyAbsD .nan = .nan from rfl, pyLeD_nan_left] at hle
    cases hle
  | fin e0 =>
  cases ne2 with
  | nan =>
    rw [hpe, show pyAddD (PyDec.fin a) (PyDec.fin b) = .fin (a.addD b) from rfl,
      show pyAddD (PyDec.fin (a.addD b)) (PyDec.fin c) = .fin ((a.addD b).addD c) from rfl,
      show pyAddD (PyDec.fin ((a.addD b).addD c)) (PyDec.fin e0)
        = .fin (((a.addD b).addD c).addD e0) from rfl,
      pySubD_nan_right] at hle
    cases hle
  | fin d =>
  rw [hpe] at hle
  simp only [pyAddD, pySubD, pyAbsD, pyLeD, Option.some.injEq] at hle
  have htol : (Dec.mk 1 2).toRat = 1 / 100 := by
    norm_num [Dec.toRat]
  have hx : ((((a.addD b).addD c).addD e0).subD d).absD.toRat
      = |a.toRat + b.toRat + c.toRat + e0.toRat - d.toRat| := by
    rw [Dec.toRat_absD, Dec.toRat_subD, Dec.toRat_addD, Dec.toRat_addD, Dec.toRat_addD]
  have heq0 : e0.toRat = eqRat r0.equalization := pyOr0_toRat _ _ hpe
  constructor
  · intro hmv
    have hbb : bb = true := hmv
    rw [hbb] at hle
    have hy := (Dec.decLe_iff _ _).mp hle
    rw [hx, htol, heq0] at hy
    exact ⟨a, b, c, d, rfl, rfl, rfl, rfl, hy⟩
  · rintro ⟨a2, b2, c2, d2, h1, h2, h3, h4, h5⟩
    simp only [Option.some.injEq, PyDec.fin.injEq] at h1 h2 h3 h4
    subst h1
    subst h2
    subst h3
    subst h4
    have hdec : Dec.decLe ((((a.addD b).addD c).addD e0).subD d).absD ⟨1, 2⟩ = true := by
      rw [Dec.decLe_iff, hx, htol, heq0]
      exact h5
    show bb = true
    exact hle.symm.trans hdec

/-- C1: for every parsed Financial Highlights table, `math_validated` is
true iff `nav_beginning`, `total_from_operations`, `dist_total` and
`nav_end` are all present and `|nav_beginning + total_from_operations +
dist_total + equalization − nav_end| ≤ 0.01`, with equalization taken as 0
when absent; in particular, when any of the four required operands is
absent the right-hand side is unsatisfiable, so `math_validated` is
false. -/
theorem c1_math_validated_iff (doc : Option (List Row)) (r : FHRecord)
    (h : parse_financial_highlights_table doc = .ok r) :
    (r.math_validated = true ↔ ∃ a b c d : Dec,
      r.nav_beginning = some (.fin a) ∧ r.total_from_operations = some (.fin b) ∧
      r.dist_total = some (.fin c) ∧ r.nav_end = some (.fin d) ∧
      |a.toRat + b.toRat + c.toRat + eqRat r.equalization - d.toRat| ≤ 1 / 100) := by
  cases doc with
  | none => cases h
  | some rows =>
    have h2 : (if rows.length < 10 then (Except.error PyErr.tooFewRows : Except PyErr FHRecord)
        else finish_math_validation (build_record rows)) = .ok r := h
    by_cases hlen : rows.length < 10
    · rw [if_pos hlen] at h2
      cases h2
    · rw [if_neg hlen] at h2
      exact finish_math_validation_iff _ _ h2

/-- Witness for C1: a concrete conforming ten-row table parses to `t1rec`,
whose `math_validated` is true, via the theorem (the discrepancy is
`|102.18 + 14.337 − 1.367 + 0 − 115.15| = 0 ≤ 0.01`). -/
theorem c1_math_validated_iff_witness :
    parse_financial_highlights_table (some t1rows) = Except.ok t1rec ∧
    t1rec.math_validated = true := by
  have hok : parse_financial_highlights_table (some t1rows) = Except.ok t1rec := by
    decide
  refine ⟨hok, ?_⟩
  refine (c1_math_validated_iff (some t1rows) t1rec hok).mpr ?_
  refine ⟨⟨10218, 2⟩, ⟨14337, 3⟩, ⟨-1367, 3⟩, ⟨11515, 2⟩, rfl, rfl, rfl, rfl, ?_⟩
  have hz : eqRat t1rec.equalization = 0 := rfl
  rw [hz]
  norm_num [Dec.toRat]

/-- C2 (code-bug exhibit): absent table and too-few-rows inputs raise as
specified, but a ten-row table whose NAV-beginning cell reads `NaN` also
raises: `Decimal("NaN")` is a valid quiet NaN, all four math-validation
operands are then present, and the ordering comparison
`discrepancy <= Decimal('0.01')` signals `InvalidOperation` under Python's
default decimal context — an exception beyond the two documented
precondition failures. -/
theorem c2_raise_behaviour :
    parse_financial_highlights_table none = .error .noTable ∧
    (parse_financial_highlights_table (some t0short) = .error .tooFewRows ∧
      t0short.length = 2) ∧
    (parse_financial_highlights_table (some t2rows) = .error .invalidOperation ∧
      t2rows.length = 10) := by
  refine ⟨rfl, ⟨by decide, by decide⟩, ⟨by decide, by decide⟩⟩

/-- C3 counterexample: the inline-fact converter `convert_numeric_value`
strips the percent sign without dividing by 100: `"14.10%"` converts to
`14.10`, not to the claimed `0.1410`. -/
theorem c3_percent_counterexample :
    convert_numeric_value (some (pstr "14.10%")) none none none false
      = .ok (some (.fin (decOf 141 1))) ∧
    Dec.toRat (decOf 141 1) = 141 / 10 ∧ (141 / 10 : ℚ) ≠ 141 / 1000 := by
  refine ⟨by decide, ?_, by norm_num⟩
  have h : decOf 141 1 = ⟨141, 1⟩ := by decide
  rw [h]
  norm_num [Dec.toRat]

/-- C7: a "words"-format (`numwordsen`) element reading `None` or `N/A`
converts to null for every scale (and sign/negate flag), the scale never
being applied; a "zero-dash"-format (`zerodash`) element reading `—`
converts to exactly `0`, not null. -/
theorem c7_format_literals (scale sign : Option PyStr) (neg : Bool) :
    convert_numeric_value (some (pstr "None")) scale
      (some (pstr "ixt-sec:numwordsen")) sign neg = .ok none ∧
    convert_numeric_value (some (pstr "N/A")) scale
      (some (pstr "ixt-sec:numwordsen")) sign neg = .ok none ∧
    convert_numeric_value (some (pstr "—")) scale
      (some (pstr "ixt:zerodash")) sign neg = .ok (some (.fin (decOf 0 0))) ∧
    Dec.toRat (decOf 0 0) = 0 := by
  refine ⟨rfl, rfl, rfl, by norm_num [decOf, Dec.norm, Dec.toRat]⟩

/-- Witness for C7 at a concrete scale and sign. -/
theorem c7_format_literals_witness :
    convert_numeric_value (some (pstr "None")) (some (pstr "-2"))
      (some (pstr "ixt-sec:numwordsen")) (some (pstr "-")) true = .ok none :=
  (c7_format_literals (some (pstr "-2")) (some (pstr "-")) true).1

/-- C9: date parsing accepts the slash, ISO and long-month formats, all
three yielding December 31 2024, and returns null on any string matched by
none of the four `strptime` formats (the embedded `parse_date` is total:
the `ValueError`s of `strptime` are caught in the source). -/
theorem c9_date_formats :
    (parse_date (some (pstr "12/31/2024")) = some ⟨2024, 12, 31⟩ ∧
     parse_date (some (pstr "2024-12-31")) = some ⟨2024, 12, 31⟩ ∧
     parse_date (some (pstr "December 31, 2024")) = some ⟨2024, 12, 31⟩) ∧
    ∀ x : PyStr, tryMDY (pyStrip x) = none → tryYMD (pyStrip x) = none →
      tryBdY monthsFull (pyStrip x) = none → tryBdY monthsAbbr (pyStrip x) = none →
      parse_date (some x) = none := by
  refine ⟨⟨by decide, by decide, by decide⟩, ?_⟩
  intro x h1 h2 h3 h4
  show (if x = [] then (none : Option PyDate)
    else
      match tryMDY (pyStrip x) with
      | some d => some d
      | none =>
        match tryYMD (pyStrip x) with
        | some d => some d
        | none =>
          match tryBdY monthsFull (pyStrip x) with
          | some d => some d
          | none => tryBdY monthsAbbr (pyStrip x)) = none
  by_cases hx : x = []
  · rw [if_pos hx]
  · rw [if_neg hx, h1, h2, h3, h4]

/-- Witness for C9 at the unparseable string `"hello"`. -/
theorem c9_date_formats_witness : parse_date (some (pstr "hello")) = none :=
  c9_date_formats.2 (pstr "hello") (by decide) (by decide) (by decide) (by decide)

theorem apply_scale_invalid (v : PyDec) (sc : PyStr) (h : pyIntOfStr sc = none) :
    apply_scale v (some sc) = v := by
  show (if sc ≠ [] then
      (match pyIntOfStr sc with | some k => pyScale10 v k | none => v)
    else v) = v
  by_cases hsc : sc = []
  · rw [if_neg (by simp [hsc])]
  · rw [if_pos hsc, h]

/-- C6: `negateToPositive` is applied last, after sign and scale: whenever
the converter yields a finite value `d` with the flag off, turning the flag
on yields `|d|`; in particular displayed `"2.00"` with `sign="-"`,
`scale=-2` and `negateToPositive=true` converts to `+0.0200` (sign makes it
`-2.00`, scale makes it `-0.02`, the final negation flips it positive). -/
theorem c6_conversion_order :
    (∀ (t : PyStr) (sc fmt sg : Option PyStr) (d : Dec),
        convert_numeric_value (some t) sc fmt sg false = .ok (some (.fin d)) →
        ∃ d2 : Dec, convert_numeric_value (some t) sc fmt sg true
            = .ok (some (.fin d2)) ∧ d2.toRat = |d.toRat|) ∧
    convert_numeric_value (some (pstr "2.00")) (some (pstr "-2")) none
      (some (pstr "-")) true = .ok (some (.fin (decOf 2 2))) ∧
    Dec.toRat (decOf 2 2) = 2 / 100 := by
  refine ⟨?_, by decide, ?_⟩
  · intro t sc fmt sg d h
    simp only [convert_numeric_value] at h
    split at h
    · rename_i h1
      simp at h
    · rename_i h1
      split at h
      · rename_i h2
        have hd2 : d = decOf 0 0 := by
          simp only [Except.ok.injEq, Option.some.injEq, PyDec.fin.injEq] at h
          exact h.symm
        subst hd2
        refine ⟨decOf 0 0, ?_, ?_⟩
        · simp only [convert_numeric_value]
          rw [if_neg h1, if_pos h2]
        · have h00 : decOf 0 0 = (⟨0, 0⟩ : Dec) := rfl
          rw [h00]
          norm_num [Dec.toRat]
      · rename_i h2
        split at h
        · rename_i h3
          simp at h
        · rename_i h3
          cases hv : pyDecimalOfStr
              (removeChar '%' (removeChar '$' (removeChar ',' (pyStrip t)))) with
          | none =>
            simp only [hv] at h
            simp at h
          | some v0 =>
            simp only [hv] at h
            have hval : apply_scale (if sg = some (pstr "-") then pyNegD v0 else v0) sc
                = .fin d := by
              simpa using h
            have hconv : convert_numeric_value (some t) sc fmt sg true
                = .ok (some (if Dec.ltZero d then pyNegD (.fin d) else .fin d)) := by
              simp only [convert_numeric_value]
              rw [if_neg h1, if_neg h2, if_neg h3]
              simp only [hv]
              rw [hval]
              simp only [pyLtZeroD]
              rw [if_pos trivial]
            cases hlt : d.ltZero with
            | true =>
              rw [hlt] at hconv
              refine ⟨d.negD, by simpa using hconv, ?_⟩
              rw [Dec.toRat_negD, abs_of_neg ((Dec.ltZero_iff d).mp hlt)]
            | false =>
              rw [hlt] at hconv
              refine ⟨d, by simpa using hconv, ?_⟩
              have hge : ¬ d.toRat < 0 := by
                intro hc
                rw [← Dec.ltZero_iff] at hc
                rw [hlt] at hc
                cases hc
              rw [abs_of_nonneg (not_lt.mp hge)]
  · have h22 : decOf 2 2 = (⟨2, 2⟩ : Dec) := rfl
    rw [h22]
    norm_num [Dec.toRat]

/-- Witness for C6 at displayed `"3.50"` with `sign="-"`: with the flag off
the converter yields `-3.5`; via the theorem, with the flag on it yields
`|-3.5| = 3.5`. -/
theorem c6_conversion_order_witness :
    convert_numeric_value (some (pstr "3.50")) none none (some (pstr "-")) false
      = .ok (some (.fin (decOf (-35) 1))) ∧
    convert_numeric_value (some (pstr "3.50")) none none (some (pstr "-")) true
      = .ok (some (.fin (decOf 35 1))) ∧
    Dec.toRat (decOf 35 1) = |Dec.toRat (decOf (-35) 1)| := by
  obtain ⟨d2, hd2, hr⟩ := c6_conversion_order.1 (pstr "3.50") none none
    (some (pstr "-")) (decOf (-35) 1) (by decide)
  have hcv : convert_numeric_value (some (pstr "3.50")) none none (some (pstr "-")) true
      = .ok (some (.fin (decOf 35 1))) := by decide
  have hde : decOf 35 1 = d2 := by
    have := hcv.symm.trans hd2
    simpa using this
  refine ⟨by decide, hcv, ?_⟩
  rw [hde]
  exact hr

/-- C10: a scale attribute string that is not a valid integer is silently
ignored — conversion behaves exactly as if no scale were supplied, so a
numeric text still converts to its (sign-adjusted) unscaled value rather
than null, and nothing is raised.  The valid/invalid boundary is Python's
`int()` including PEP 515 underscore grouping: the scale string `"1_0"`
parses as 10 and *is* applied (last conjunct), while `"abc"` is ignored. -/
theorem c10_invalid_scale_ignored :
    (∀ (t : PyStr) (fmt sg : Option PyStr) (neg : Bool) (sc : PyStr),
      pyIntOfStr sc = none →
      convert_numeric_value (some t) (some sc) fmt sg neg
        = convert_numeric_value (some t) none fmt sg neg) ∧
    convert_numeric_value (some (pstr "2.50")) (some (pstr "abc")) none
      (some (pstr "-")) false = .ok (some (.fin (decOf (-25) 1))) ∧
    pyIntOfStr (pstr "1_0") = some 10 ∧
    convert_numeric_value (some (pstr "2.00")) (some (pstr "1_0")) none
      none false = .ok (some (.fin (decOf 20000000000 0))) := by
  refine ⟨?_, by decide, by decide, by decide⟩
  intro t fmt sg neg sc h
  have hs : ∀ v : PyDec, apply_scale v (some sc) = apply_scale v none := by
    intro v
    rw [apply_scale_invalid v sc h]
    rfl
  simp only [convert_numeric_value, hs]

/-- Witness for C10: the invalid scale string `"xyz"` leaves `"7.5"`
converting to `7.5`, exactly as with no scale. -/
theorem c10_invalid_scale_ignored_witness :
    convert_numeric_value (some (pstr "7.5")) (some (pstr "xyz")) none none false
      = convert_numeric_value (some (pstr "7.5")) none none none false ∧
    convert_numeric_value (some (pstr "7.5")) none none none false
      = .ok (some (.fin (decOf 75 1))) :=
  ⟨c10_invalid_scale_ignored.1 (pstr "7.5") none none false (pstr "xyz") (by decide),
   by decide⟩

theorem processClassBlock_series (ns : PyStr) (acc : SeriesClassInfo) (cblk : PyStr) :
    (processClassBlock ns acc cblk).series = acc.series := by
  unfold processClassBlock
  repeat' split
  all_goals try rfl
  all_goals (dsimp only; split <;> rfl)

theorem foldl_processClassBlock_series (ns : PyStr) (cbs : List PyStr) :
    ∀ acc : SeriesClassInfo, ((cbs.foldl (processClassBlock ns) acc).series = acc.series) := by
  induction cbs with
  | nil => intro acc; rfl
  | cons c t ih =>
    intro acc
    rw [List.foldl_cons, ih, processClassBlock_series]

theorem alistGet_alistUpdate {α β : Type} [DecidableEq α] (k : α) (v : β)
    (m : List (α × β)) : alistGet k (alistUpdate k v m) = some v := by
  induction m with
  | nil => simp [alistUpdate, alistGet]
  | cons p t ih =>
    cases p with
    | mk k1 v1 =>
      by_cases h : k1 = k
      · subst h
        simp [alistUpdate, alistGet]
      · simp [alistUpdate, alistGet, h, ih]

/-- C4 counterexample: in a header whose two SERIES blocks share the id
`S000001` with names "Alpha Fund" then "Beta Fund", the series map yields
the *second* name — the later block overwrote the earlier mapping, so
first-wins does not hold (parsing the first block alone shows the earlier
name was indeed "Alpha Fund"). -/
theorem c4_series_first_wins_counterexample :
    alistGet (pstr "S000001") (parse_series_class_info hdrTwoSeries).series
        = some (pstr "Beta Fund") ∧
    alistGet (pstr "S000001") (parse_series_class_info hdrFirstSeries).series
        = some (pstr "Alpha Fund") ∧
    pstr "Beta Fund" ≠ pstr "Alpha Fund" := by
  refine ⟨by decide, by decide, by decide⟩

/-- C4 amended: a later SERIES block whose id is already present
*overwrites* the earlier mapping (last-wins, plain dict assignment):
processing a series block with extracted id and name performs exactly a
dict update of the series map, a dict update makes lookup return the new
value, and on the concrete two-block header the id maps to the second
block's name. -/
theorem c4_series_last_wins :
    (∀ (acc : SeriesClassInfo) (blk sid name : PyStr),
      (searchTagLine (pstr "<SERIES-NAME>") blk).map pyStrip = some name →
      (searchTagLine (pstr "<SERIES-ID>") blk).map pyStrip = some sid →
      sid ≠ [] → name ≠ [] →
      (processSeriesBlock acc blk).series = alistUpdate sid name acc.series) ∧
    (∀ (m : List (PyStr × PyStr)) (k v : PyStr),
      alistGet k (alistUpdate k v m) = some v) ∧
    alistGet (pstr "S000001") (parse_series_class_info hdrTwoSeries).series
      = some (pstr "Beta Fund") := by
  refine ⟨?_, fun m k v => alistGet_alistUpdate k v m, by decide⟩
  intro acc blk sid name h1 h2 hsid hname
  obtain ⟨rn, hrn, hrn2⟩ : ∃ rn, searchTagLine (pstr "<SERIES-NAME>") blk = some rn
      ∧ pyStrip rn = name := by
    cases hx : searchTagLine (pstr "<SERIES-NAME>") blk with
    | none => rw [hx] at h1; cases h1
    | some v => rw [hx] at h1; exact ⟨v, rfl, by simpa using h1⟩
  obtain ⟨ri, hri, hri2⟩ : ∃ ri, searchTagLine (pstr "<SERIES-ID>") blk = some ri
      ∧ pyStrip ri = sid := by
    cases hx : searchTagLine (pstr "<SERIES-ID>") blk with
    | none => rw [hx] at h2; cases h2
    | some v => rw [hx] at h2; exact ⟨v, rfl, by simpa using h2⟩
  unfold processSeriesBlock
  simp only [hrn, hri, hrn2, hri2]
  rw [if_pos (by simp [hsid, hname])]
  rw [foldl_processClassBlock_series]

/-- Witness for C4: processing the "Beta Fund" block over a series map
already holding "Alpha Fund" for `S000001` replaces the entry. -/
theorem c4_series_last_wins_witness :
    (processSeriesBlock ⟨[(pstr "S000001", pstr "Alpha Fund")], [], []⟩
      (pstr "<SERIES-NAME>Beta Fund\n<SERIES-ID>S000001\n")).series
      = [(pstr "S000001", pstr "Beta Fund")] := by
  have h := c4_series_last_wins.1 ⟨[(pstr "S000001", pstr "Alpha Fund")], [], []⟩
    (pstr "<SERIES-NAME>Beta Fund\n<SERIES-ID>S000001\n") (pstr "S000001")
    (pstr "Beta Fund") (by decide) (by decide) (by decide) (by decide)
  rw [h]
  decide

theorem hasPrefixL_refl (l : PyStr) : hasPrefixL l l = true := by
  induction l with
  | nil => rfl
  | cons c t ih => simp [hasPrefixL, ih]

theorem pyIn_refl (l : PyStr) : pyIn l l = true := by
  cases l with
  | nil => rfl
  | cons c t => simp [pyIn, hasPrefixL_refl]

theorem find?_prefix_skip {α : Type} (p : α → Bool) (x : α) (post : List α) :
    ∀ pre : List α, (∀ e ∈ pre, p e = false) → p x = true →
      (pre ++ x :: post).find? p = some x := by
  intro pre
  induction pre with
  | nil =>
    intro _ hx
    simp [List.find?, hx]
  | cons a t ih =>
    intro hpre hx
    have ha : p a = false := hpre a (by simp)
    simp only [List.cons_append, List.find?, ha]
    exact ih (fun e he => hpre e (by simp [he])) hx

/-- C5 counterexample: with stored entries `("fund","shares") → C1` then
`("big fund","x shares") → C2`, the candidate pair ("Big Fund","X Shares")
normalizes to a key exactly equal to the second entry's, yet reconciliation
returns `C1`: the earlier entry already passes the bidirectional substring
test, so an exact match has no priority. -/
theorem c5_exact_match_counterexample :
    match_table_class_id byNameShadow [] (pstr "Big Fund") (pstr "X Shares")
        = some (pstr "C1") ∧
    ((pyLower (pstr "Big Fund"), pyLower (pstr "X Shares")), pstr "C2")
        ∈ byNameShadow ∧
    pstr "C1" ≠ pstr "C2" := by
  refine ⟨by decide, by decide, by decide⟩

/-- C5 amended: reconciliation scans the stored `by_name` entries in
insertion order, first bidirectional-substring success wins (the ticker
fallback runs only when no name entry matches).  An exactly-equal stored
key always passes the substring test, so it wins exactly when *no earlier
entry* passes the test — exact equality has no precedence of its own. -/
theorem c5_first_substring_match :
    ∀ (pre post : List ((PyStr × PyStr) × PyStr)) (bt : List (PyStr × PyStr))
      (f c cid : PyStr),
      (∀ e ∈ pre, nameEntryTest e (pyLower f) (pyLower c) = false) →
      cid ≠ [] →
      match_table_class_id (pre ++ ((pyLower f, pyLower c), cid) :: post) bt f c
        = some cid := by
  intro pre post bt f c cid hpre hcid
  simp only [match_table_class_id]
  have hx : nameEntryTest ((pyLower f, pyLower c), cid) (pyLower f) (pyLower c)
      = true := by
    simp [nameEntryTest, bidirSub, pyIn_refl]
  rw [find?_prefix_skip _ _ post pre hpre hx]
  simp only [Option.map_some']
  rw [if_pos (by simp [hcid])]

/-- Witness for C5: an exactly-matching stored pair with no earlier
substring-matching entry resolves to its class id. -/
theorem c5_first_substring_match_witness :
    match_table_class_id
      [((pstr "other trust", pstr "class z"), pstr "C9"),
       ((pstr "vanguard 500 index fund", pstr "investor shares"), pstr "C000123456")]
      [] (pstr "Vanguard 500 Index Fund") (pstr "Investor Shares")
      = some (pstr "C000123456") := by
  rw [show [((pstr "other trust", pstr "class z"), pstr "C9"),
       ((pstr "vanguard 500 index fund", pstr "investor shares"), pstr "C000123456")]
     = [((pstr "other trust", pstr "class z"), pstr "C9")] ++
       ((pyLower (pstr "Vanguard 500 Index Fund"), pyLower (pstr "Investor Shares")),
         pstr "C000123456") :: [] from by decide]
  exact c5_first_substring_match _ _ [] _ _ _ (by decide) (by decide)

theorem pyStrip_paren (l : PyStr) :
    pyStrip ('(' :: (l ++ [')'])) = '(' :: (l ++ [')']) := by
  unfold pyStrip
  rw [List.dropWhile_cons]
  have hsp : isPySpace '(' = false := rfl
  rw [hsp]
  simp only [Bool.false_eq_true, if_false]
  have h2 : ('(' :: (l ++ [')'])).reverse = ')' :: (l.reverse ++ ['(']) := by
    simp
  rw [h2, List.dropWhile_cons]
  have hsp2 : isPySpace ')' = false := rfl
  rw [hsp2]
  simp only [Bool.false_eq_true, if_false]
  rw [← h2, List.reverse_reverse]

theorem Dec.norm_neg (m : Int) (e : ℕ) : Dec.norm (-m) e = (Dec.norm m e).negD := by
  induction e generalizing m with
  | zero => simp [Dec.norm, Dec.negD]
  | succ e ih =>
    show (if -m % 10 = 0 then Dec.norm (-m / 10) e else ⟨-m, e + 1⟩) = _
    by_cases h : m % 10 = 0
    · have hneg : -m % 10 = 0 := by omega
      have hdiv : -m / 10 = -(m / 10) := by omega
      rw [if_pos hneg, hdiv, ih]
      show _ = (if m % 10 = 0 then Dec.norm (m / 10) e else ⟨m, e + 1⟩).negD
      rw [if_pos h]
    · have hneg : ¬ -m % 10 = 0 := by omega
      rw [if_neg hneg]
      show _ = (if m % 10 = 0 then Dec.norm (m / 10) e else ⟨m, e + 1⟩).negD
      rw [if_neg h]
      rfl

theorem pyDiv100_negD (x : PyDec) : pyDiv100 (pyNegD x) = pyNegD (pyDiv100 x) := by
  cases x with
  | nan => rfl
  | fin q =>
    show PyDec.fin (Dec.norm (-q.m) (q.e + 2)) = .fin (Dec.norm q.m (q.e + 2)).negD
    rw [Dec.norm_neg]

theorem pyIn_singleton_cons (c a : Char) (l : PyStr) :
    pyIn [c] (a :: l) = (decide (c = a) || pyIn [c] l) := by
  simp [pyIn, hasPrefixL]

theorem pyIn_singleton_append (c : Char) (l1 l2 : PyStr) :
    pyIn [c] (l1 ++ l2) = (pyIn [c] l1 || pyIn [c] l2) := by
  induction l1 with
  | nil => simp [pyIn, hasPrefixL]
  | cons a t ih =>
    rw [List.cons_append, pyIn_singleton_cons, pyIn_singleton_cons, ih]
    rw [Bool.or_assoc]

theorem pyIn_pct_paren (d : PyStr) :
    pyIn (pstr "%") ('(' :: (d ++ [')'])) = pyIn (pstr "%") d := by
  show pyIn ['%'] ('(' :: (d ++ [')'])) = pyIn ['%'] d
  rw [pyIn_singleton_cons, pyIn_singleton_append]
  simp [pyIn, hasPrefixL]

theorem removeChar_paren (c : Char) (hc1 : c ≠ '(') (hc2 : c ≠ ')') (d : PyStr) :
    removeChar c ('(' :: (d ++ [')'])) = '(' :: (removeChar c d ++ [')']) := by
  unfold removeChar
  rw [List.filter_cons, List.filter_append]
  simp [Ne.symm hc1, Ne.symm hc2]

theorem hasParenShape_paren (x : PyStr) :
    hasParenShape ('(' :: (x ++ [')'])) = true := by
  unfold hasParenShape
  have h1 : pyStartsWithChar ('(' :: (x ++ [')'])) '(' = true := rfl
  have h2 : pyEndsWithChar ('(' :: (x ++ [')'])) ')' = true := by
    unfold pyEndsWithChar
    rw [show ('(' :: (x ++ [')'])) = ('(' :: x) ++ [')']
        from (List.cons_append _ _ _).symm, List.getLast?_concat]
    rfl
  rw [h1, h2]
  rfl

theorem parenInner_paren (x : PyStr) :
    parenInner ('(' :: (x ++ [')'])) = x := by
  unfold parenInner
  rw [hasParenShape_paren, if_pos rfl]
  unfold sliceOneToM1
  rw [List.drop_one, List.tail_cons]
  exact List.dropLast_concat

theorem dashWordGuard_paren (x : PyStr) :
    dashWordGuard ('(' :: (x ++ [')'])) = false := by
  simp [dashWordGuard, pstr]

/-- C8: the numeric-parsing primitive `_parse_decimal` negates a
parenthesized value: whenever a stripped string `d` (itself not of
parenthesized shape after percent removal) parses to `v`, the string
`"(" + d + ")"` parses to `-v`, with currency symbols and grouping commas
removed inside the parentheses exactly as outside. -/
theorem c8_paren_negation (d : PyStr) (v : PyDec)
    (hstrip : pyStrip d = d)
    (hnp : hasParenShape (removeChar '%' d) = false)
    (h : parse_decimal (some d) = some v) :
    parse_decimal (some ('(' :: (d ++ [')']))) = some (pyNegD v) := by
  have hR : parse_decimal (some d)
      = if dashWordGuard (pyStrip d) = true then none
        else parse_decimal_num (pyStrip d) := rfl
  have hL : parse_decimal (some ('(' :: (d ++ [')'])))
      = if dashWordGuard (pyStrip ('(' :: (d ++ [')']))) = true then none
        else parse_decimal_num (pyStrip ('(' :: (d ++ [')']))) := rfl
  rw [hR, hstrip] at h
  rw [hL, pyStrip_paren, dashWordGuard_paren]
  simp only [Bool.false_eq_true, if_false]
  cases hdg : dashWordGuard d with
  | true =>
    rw [hdg] at h
    simp at h
  | false =>
  rw [hdg] at h
  simp only [Bool.false_eq_true, if_false] at h
  have hE : ∀ s : PyStr, parse_decimal_num s =
      (match pyDecimalOfStr (removeChar ',' (removeChar '$' (parenInner (removeChar '%' s)))) with
       | none => none
       | some d0 => some (if pyIn (pstr "%") s = true
           then pyDiv100 (if hasParenShape (removeChar '%' s) = true then pyNegD d0 else d0)
           else (if hasParenShape (removeChar '%' s) = true then pyNegD d0 else d0))) :=
    fun s => rfl
  rw [hE] at h
  rw [hE]
  have hrm := removeChar_paren '%' (by decide) (by decide) d
  have hshape : hasParenShape (removeChar '%' ('(' :: (d ++ [')']))) = true := by
    rw [hrm]
    exact hasParenShape_paren _
  have hinner : parenInner (removeChar '%' ('(' :: (d ++ [')']))) = removeChar '%' d := by
    rw [hrm]
    exact parenInner_paren _
  simp only [hshape, hinner, pyIn_pct_paren, eq_self_iff_true, if_true]
  simp only [hnp, Bool.false_eq_true, if_false] at h
  simp only [parenInner, hnp, Bool.false_eq_true, if_false] at h
  cases hv : pyDecimalOfStr (removeChar ',' (removeChar '$' (removeChar '%' d))) with
  | none =>
    rw [hv] at h
    simp at h
  | some d0 =>
    rw [hv] at h
    simp only [Option.some.injEq] at h
    simp only [hv]
    subst h
    cases hpc : pyIn (pstr "%") d with
    | false => simp only [hpc, Bool.false_eq_true, if_false]
    | true =>
      simp only [hpc, if_true]
      rw [pyDiv100_negD]

/-- Witness for C8 at the spec's two examples: `"(1.23)"` → `-1.23` and
`"($1,234.56)"` → `-1234.56`, each obtained by applying the theorem to the
unparenthesized literal. -/
theorem c8_paren_negation_witness :
    parse_decimal (some (pstr "(1.23)")) = some (.fin (decOf (-123) 2)) ∧
    parse_decimal (some (pstr "($1,234.56)")) = some (.fin (decOf (-123456) 2)) := by
  constructor
  · have h1 := c8_paren_negation (pstr "1.23") (.fin (decOf 123 2))
      (by decide) (by decide) (by decide)
    rw [show pstr "(1.23)" = '(' :: (pstr "1.23" ++ [')']) from by decide, h1]
    decide
  · have h2 := c8_paren_negation (pstr "$1,234.56") (.fin (decOf 123456 2))
      (by decide) (by decide) (by decide)
    rw [show pstr "($1,234.56)" = '(' :: (pstr "$1,234.56" ++ [')']) from by decide, h2]
    decide

theorem dropWhile_eq_self_of_length {p : Char → Bool} {l : PyStr}
    (h : (l.dropWhile p).length = l.length) : l.dropWhile p = l := by
  cases l with
  | nil => rfl
  | cons a t =>
    rw [List.dropWhile_cons] at h ⊢
    by_cases hpa : p a = true
    · exfalso
      rw [if_pos hpa] at h
      have hle := (List.dropWhile_sublist (l := t) p).length_le
      simp only [List.length_cons] at h
      omega
    · rw [if_neg hpa]

theorem head_not_p_of_dropWhile_self {p : Char → Bool} {a : Char} {t : PyStr}
    (h : (a :: t).dropWhile p = a :: t) : p a = false := by
  by_cases hpa : p a = true
  · exfalso
    rw [List.dropWhile_cons, if_pos hpa] at h
    have hle := (List.dropWhile_sublist (l := t) p).length_le
    have hlen := congrArg List.length h
    simp only [List.length_cons] at hlen
    omega
  · simpa using hpa

theorem dropWhile_self_of_strip (d : PyStr) (hst : pyStrip d = d) :
    d.dropWhile isPySpace = d := by
  apply dropWhile_eq_self_of_length
  have h1 := (List.dropWhile_sublist (l := d) isPySpace).length_le
  have h2 := (List.dropWhile_sublist (l := (d.dropWhile isPySpace).reverse) isPySpace).length_le
  have h3 : (pyStrip d).length = d.length := by rw [hst]
  unfold pyStrip at h3
  simp only [List.length_reverse] at h3 h2
  omega

theorem pyStrip_append_char (d : PyStr) (c : Char) (hst : pyStrip d = d)
    (hc : isPySpace c = false) : pyStrip (d ++ [c]) = d ++ [c] := by
  have hdw := dropWhile_self_of_strip d hst
  have h1 : (d ++ [c]).dropWhile isPySpace = d ++ [c] := by
    cases d with
    | nil =>
      simp only [List.nil_append]
      rw [List.dropWhile_cons, hc]
      simp
    | cons a t =>
      have hpa : isPySpace a = false := head_not_p_of_dropWhile_self hdw
      rw [List.cons_append, List.dropWhile_cons, hpa]
      simp
  unfold pyStrip
  rw [h1]
  have h2 : (d ++ [c]).reverse = c :: d.reverse := by simp
  rw [h2, List.dropWhile_cons, hc]
  simp

theorem parse_decimal_num_eq (s : PyStr) : parse_decimal_num s =
    (match pyDecimalOfStr (removeChar ',' (removeChar '$' (parenInner (removeChar '%' s)))) with
     | none => none
     | some d0 => some (if pyIn (pstr "%") s = true
         then pyDiv100 (if hasParenShape (removeChar '%' s) = true then pyNegD d0 else d0)
         else (if hasParenShape (removeChar '%' s) = true then pyNegD d0 else d0))) := rfl

theorem pyIn_pct_append (d : PyStr) : pyIn (pstr "%") (d ++ ['%']) = true := by
  show pyIn ['%'] (d ++ ['%']) = true
  rw [pyIn_singleton_append]
  simp [pyIn, hasPrefixL]

theorem removeChar_pct_append (d : PyStr) :
    removeChar '%' (d ++ ['%']) = removeChar '%' d := by
  unfold removeChar
  rw [List.filter_append]
  simp

theorem dashWordGuard_append_pct (d : PyStr) :
    dashWordGuard (d ++ ['%']) = false := by
  have key : ∀ (L : PyStr) (c : Char), L.getLast? = some c → ¬ c = '%' →
      decide (d ++ ['%'] = L) = false := by
    intro L c hL hc
    apply decide_eq_false
    intro h
    rw [← h, List.getLast?_concat] at hL
    exact hc (Option.some.inj hL).symm
  have key0 : decide (d ++ ['%'] = ([] : PyStr)) = false := by
    apply decide_eq_false
    simp
  unfold dashWordGuard
  rw [key0, key (pstr "-") '-' (by decide) (by decide),
      key (pstr "—") '—' (by decide) (by decide),
      key (pstr "N/A") 'A' (by decide) (by decide),
      key (pstr "n/a") 'a' (by decide) (by decide)]
  rfl

/-- C3 amended: for percent-carrying literals the division by 100 happens
only in the table parser's numeric primitive `_parse_decimal`: appending
`%` to *any* parseable stripped percent-free literal divides its parsed
value by exactly 100 there, while `convert_numeric_value` merely strips
the `%` decoration — appending `%` to *any* stripped text never changes
its result (format attribute absent), percent normalisation for inline
facts coming from the `scale` attribute instead.  Concretely `"14.10%"`
is `0.1410` for `_parse_decimal` and `14.10` for the converter. -/
theorem c3_percent_division_amended :
    (∀ (d : PyStr) (q : PyDec),
        pyStrip d = d → pyIn (pstr "%") d = false →
        parse_decimal (some d) = some q →
        parse_decimal (some (d ++ ['%'])) = some (pyDiv100 q)) ∧
    (∀ (t : PyStr) (sc sg : Option PyStr) (neg : Bool),
        pyStrip t = t →
        convert_numeric_value (some (t ++ ['%'])) sc none sg neg
          = convert_numeric_value (some t) sc none sg neg) ∧
    parse_decimal (some (pstr "14.10%")) = some (.fin (decOf 1410 4)) ∧
    convert_numeric_value (some (pstr "14.10%")) none none none false
      = .ok (some (.fin (decOf 141 1))) := by
  refine ⟨?_, ?_, by decide, by decide⟩
  · intro d q hst hpf h
    have hR : parse_decimal (some d)
        = if dashWordGuard (pyStrip d) = true then none
          else parse_decimal_num (pyStrip d) := rfl
    have hL : parse_decimal (some (d ++ ['%']))
        = if dashWordGuard (pyStrip (d ++ ['%'])) = true then none
          else parse_decimal_num (pyStrip (d ++ ['%'])) := rfl
    rw [hR, hst] at h
    rw [hL, pyStrip_append_char d '%' hst (by decide), dashWordGuard_append_pct]
    simp only [Bool.false_eq_true, if_false]
    cases hdg : dashWordGuard d with
    | true =>
      rw [hdg] at h
      simp at h
    | false =>
    rw [hdg] at h
    simp only [Bool.false_eq_true, if_false] at h
    rw [parse_decimal_num_eq] at h
    rw [parse_decimal_num_eq]
    simp only [hpf, Bool.false_eq_true, if_false] at h
    simp only [removeChar_pct_append, pyIn_pct_append, eq_self_iff_true, if_true]
    cases hv : pyDecimalOfStr
        (removeChar ',' (removeChar '$' (parenInner (removeChar '%' d)))) with
    | none =>
      rw [hv] at h
      simp at h
    | some d0 =>
      rw [hv] at h
      simp only [Option.some.injEq] at h
      simp only [hv]
      subst h
      rfl
  · intro t sc sg neg hst
    simp only [convert_numeric_value]
    rw [pyStrip_append_char t '%' hst (by decide), hst]
    have hcl : removeChar '%' (removeChar '$' (removeChar ',' (t ++ ['%'])))
        = removeChar '%' (removeChar '$' (removeChar ',' t)) := by
      unfold removeChar
      simp [List.filter_append]
    simp only [show fmtHas none (pstr "numwordsen") = false from rfl,
      show fmtHas none (pstr "zerodash") = false from rfl,
      Bool.false_and, Bool.false_eq_true, if_false, hcl]

/-- Witness for C3's amended claim at the spec's literal: appending `%` to
`"14.10"` divides the `_parse_decimal` result by 100 and changes nothing
for `convert_numeric_value`. -/
theorem c3_percent_division_amended_witness :
    parse_decimal (some (pstr "14.10%")) = some (pyDiv100 (.fin (decOf 1410 2))) ∧
    convert_numeric_value (some (pstr "14.10%")) (some (pstr "-2")) none none false
      = convert_numeric_value (some (pstr "14.10")) (some (pstr "-2")) none none false := by
  constructor
  · have h := c3_percent_division_amended.1 (pstr "14.10") (.fin (decOf 1410 2))
      (by decide) (by decide) (by decide)
    rw [show pstr "14.10%" = pstr "14.10" ++ ['%'] from by decide]
    exact h
  · have h := c3_percent_division_amended.2.1 (pstr "14.10") (some (pstr "-2")) none false
      (by decide)
    rw [show pstr "14.10%" = pstr "14.10" ++ ['%'] from by decide]
    exact h
